import Mathlib

/-
Verification development for the walker-batch module of the ipie AFQMC code
(src/ipie/walkers/uhf_walkers.py). The module is embedded shallowly:

* complex128 arrays are modelled over an arbitrary field K (instantiated at
  Rat for concrete evaluations); a matrix is a list of rows;
* the numeric backend (ipie.utils.backend: qr, exp, log, abs, sign) is an
  external collaborator and is modelled as a record of operations NumOps,
  so every theorem quantifies over the backend;
* the batched qr of a 3-D stack of matrices follows the broadcast
  semantics of the array library: the single-matrix qr applied slice by
  slice along the walker axis;
* walker arrays are lists indexed by walker number; the per-walker loop
  for iw in range(self.nwalkers) becomes a map over List.range nwalkers.
-/

namespace Ipie

/-- A matrix as a list of rows. -/
abbrev Mat (K : Type) := List (List K)

/-- Numeric backend operations consumed by uhf_walkers.py from
ipie.utils.backend: a rank-preserving decomposition qr returning (Q, R),
and elementwise exp, log, abs and sign. -/
structure NumOps (K : Type) where
  qr : Mat K → Mat K × Mat K
  exp : K → K
  log : K → K
  abs : K → K
  sign : K → K

/-- Diagonal of a matrix, mirroring xp.diag (and the batched einsum
wii to wi, slice by slice). -/
def diag {K : Type} [Zero K] (m : Mat K) : List K :=
  (List.range m.length).map (fun k => (m.getD k []).getD k 0)

/-- Multiplication of a matrix by diag s on the right, mirroring
xp.dot(Q, xp.diag(signs)): column j is scaled by s j. -/
def colScale {K : Type} [Mul K] (q : Mat K) (s : List K) : Mat K :=
  q.map (fun row => List.zipWith (fun a b => a * b) row s)

/-- Sum of the elementwise log of the elementwise abs of a diagonal,
mirroring xp.sum(xp.log(xp.abs(R_diag))). -/
def sumLogAbs {K : Type} [Field K] (ops : NumOps K) (ds : List K) : K :=
  (ds.map (fun d => ops.log (ops.abs d))).sum

/-- The mutable per-batch state of UHFWalkers that uhf_walkers.py reads and
writes: orbital matrices phia, phib (one matrix per walker) and the
weight/overlap ledger detR, log_detR, ovlp, detR_shift (one scalar per
walker), together with the fixed sizes nup, ndown, nbasis, nwalkers. -/
structure UHFWalkersState (K : Type) where
  nup : Nat
  ndown : Nat
  nbasis : Nat
  nwalkers : Nat
  phia : List (Mat K)
  phib : List (Mat K)
  detR : List K
  log_detR : List K
  ovlp : List K
  detR_shift : List K

/-- Translated from the body of the per-walker loop of UHFWalkers.reortho
(uhf_walkers.py lines 144-166): factor phia as Q R, fix the sign of each
column of Q by the sign of the matching diagonal entry of R, accumulate
the log of the absolute diagonal, do the same for phib when ndown is
positive, and form exp(log_det - shift). Returns the new phia, the new
phib and the detR scalar of this walker. -/
def reorthoWalker {K : Type} [Field K] (ops : NumOps K) (ndown : Nat)
    (shift : K) (pa pb : Mat K) : Mat K × Mat K × K :=
  let qa := ops.qr pa
  let da := diag qa.2
  let pa2 := colScale qa.1 (da.map ops.sign)
  let logDetUp := sumLogAbs ops da
  if 0 < ndown then
    let qb := ops.qr pb
    let db := diag qb.2
    let pb2 := colScale qb.1 (db.map ops.sign)
    (pa2, pb2, ops.exp (logDetUp + sumLogAbs ops db - shift))
  else
    (pa2, pb, ops.exp (logDetUp - shift))

/-- Translated from UHFWalkers.reortho (uhf_walkers.py lines 131-172),
the per-walker execution mode: loop over walkers; for each walker run the
decomposition and sign fix of reorthoWalker, then update the ledger as in
lines 166-169: detR[iw] becomes exp(log_det - detR_shift[iw]),
log_detR[iw] is increased by log(detR[iw]) and ovlp[iw] is divided by
detR[iw]. Returns the new state together with the returned detR list. -/
def reortho {K : Type} [Field K] (ops : NumOps K) (s : UHFWalkersState K) :
    UHFWalkersState K × List K :=
  let res := fun iw => reorthoWalker ops s.ndown (s.detR_shift.getD iw 0)
      (s.phia.getD iw []) (s.phib.getD iw [])
  let dR := fun iw => (res iw).2.2
  let idx := List.range s.nwalkers
  ({ s with
      phia := idx.map (fun iw => (res iw).1)
      phib := idx.map (fun iw => (res iw).2.1)
      detR := idx.map dR
      log_detR := idx.map (fun iw => s.log_detR.getD iw 0 + ops.log (dR iw))
      ovlp := idx.map (fun iw => s.ovlp.getD iw 0 / dR iw) },
   idx.map dR)

/-- Translated from UHFWalkers.reortho_batched (uhf_walkers.py lines
174-195), the batched execution mode: one stacked decomposition per spin
channel (broadcast over the walker axis), phia and phib are set to the raw
Q factors (the source applies no sign fix here), the per-walker log_det is
the vectorized sum of log abs of the stacked diagonals (down channel added
only when ndown is positive), detR becomes exp(log_det - detR_shift) and
ovlp is divided elementwise by detR. The source does not touch log_detR in
this mode. Returns the new state together with the returned detR array. -/
def reorthoBatched {K : Type} [Field K] (ops : NumOps K)
    (s : UHFWalkersState K) : UHFWalkersState K × List K :=
  let idx := List.range s.nwalkers
  let qa := fun iw => ops.qr (s.phia.getD iw [])
  let ldUp := fun iw => sumLogAbs ops (diag (qa iw).2)
  let qb := fun iw => ops.qr (s.phib.getD iw [])
  let ld := fun iw =>
    if 0 < s.ndown then ldUp iw + sumLogAbs ops (diag (qb iw).2) else ldUp iw
  let dR := fun iw => ops.exp (ld iw - s.detR_shift.getD iw 0)
  ({ s with
      phia := idx.map (fun iw => (qa iw).1)
      phib := if 0 < s.ndown then idx.map (fun iw => (qb iw).1) else s.phib
      detR := idx.map dR
      ovlp := idx.map (fun iw => s.ovlp.getD iw 0 / dR iw) },
   idx.map dR)

/-- Accumulated log-determinant of walker iw in one reorthonormalization
pass: the up-channel sum of log abs of the diagonal of R, plus the
down-channel sum when ndown is positive. -/
def reorthoLogDet {K : Type} [Field K] (ops : NumOps K)
    (s : UHFWalkersState K) (iw : Nat) : K :=
  sumLogAbs ops (diag (ops.qr (s.phia.getD iw [])).2)
    + (if 0 < s.ndown then sumLogAbs ops (diag (ops.qr (s.phib.getD iw [])).2)
       else 0)

/-- Translated from the opening of UHFWalkers.init (uhf_walkers.py line
70): the only validation performed on the initial orbital matrix is the
assertion that its ndarray shape has exactly two entries. The nup and
ndown arguments are received by the constructor but take no part in the
check; the outcome is modelled as an Except value, error standing for the
raised assertion. -/
def uhfWalkersInitCheck (shape : List Nat) ( nup ndown : Nat) :
    Except String Unit :=
  if shape.length = 2 then Except.ok () else Except.error "ShapeError"

/-- Translated from UHFWalkers.init (uhf_walkers.py lines 89-92): phia is
built by replicating an independent copy of the first nup columns of the
initial matrix once per walker. -/
def mkPhia {K : Type} (initial : Mat K) ( nup nwalkers : Nat) :
    List (Mat K) :=
  (List.range nwalkers).map (fun _ => initial.map (fun row => row.take nup))

/-- Translated from UHFWalkers.init (uhf_walkers.py lines 93-96): phib is
built by replicating an independent copy of the columns of the initial
matrix from nup onwards, once per walker. -/
def mkPhib {K : Type} (initial : Mat K) ( nup nwalkers : Nat) :
    List (Mat K) :=
  (List.range nwalkers).map (fun _ => initial.map (fun row => row.drop nup))

/-- Translated from UHFWalkers.init (uhf_walkers.py line 115): the
registered buffer-field names after construction. The source appends the
single string containing a comma, not the two names phia and phib. -/
def uhfBuffNames (base : List String) : List String :=
  base ++ ["phia, phib"]

/-- Modelled from the spec: BaseWalkers.set_buff_size_single_walker is not
under src; per section 6 of the spec the per-walker buffer size is derived
from summing all mutable field sizes, the walk being driven by the
registered name list: an allocated field contributes its size exactly when
its name appears in the registered list, and a registered name matching no
allocated field contributes nothing. alloc lists the allocated per-walker
fields as name and size pairs. -/
def setBuffSizeSingleWalker (alloc : List (String × Nat))
    (names : List String) : Nat :=
  ((alloc.filter (fun p => names.contains p.1)).map (fun p => p.2)).sum

/-- Zero matrix of the given row and column counts, mirroring
numpy.zeros for a 2-D shape. -/
def zerosMat (K : Type) [Zero K] (n m : Nat) : Mat K :=
  List.replicate n (List.replicate m 0)

/-- Stack of zero matrices, mirroring numpy.zeros for a 4-D shape with
leading axes n and d. -/
def zeros4 (K : Type) [Zero K] (n d p q : Nat) : List (List (Mat K)) :=
  List.replicate n (List.replicate d (zerosMat K p q))

/-- Variant tags of the trial-wavefunction classes named by
uhf_walkers.py. The trial classes themselves live outside src; per the
spec the variant is a tag, so the isinstance tests of the source are
modelled as tag equality, and otherTrial stands for any trial whose tag
matches none of the named classes. -/
inductive TrialTag where
  | singleDet
  | particleHoleWicks
  | particleHoleWicksNonChunked
  | particleHoleNaive
  | otherTrial
deriving DecidableEq

/-- The trial-wavefunction data read by get_initial_walker: the variant
tag, the full orbital matrix psi of a single-determinant trial, the
per-spin reference orbital blocks psi0a and psi0b of a particle-hole
trial, and the number of determinants kept for the trial. -/
structure Trial (K : Type) where
  tag : TrialTag
  psi : Mat K
  psi0a : Mat K
  psi0b : Mat K
  numDetsForTrial : Nat

/-- Translated from UHFWalkers.build (uhf_walkers.py lines 124-125): the
single-determinant build step returns immediately, adding nothing to the
state. The trial argument is received and ignored, as in the source. -/
def uhfWalkersBuild {K : Type} (trial : Trial K)
    (s : UHFWalkersState K) : UHFWalkersState K :=
  s

/-- State of UHFWalkersParticleHoleNaive: the base walker state extended
by the per-determinant auxiliary tensors allocated in its constructor
(uhf_walkers.py lines 308-353). -/
structure UHFWalkersParticleHoleNaiveState (K : Type) extends
    UHFWalkersState K where
  ndets : Nat
  det_weights : List (List K)
  det_ovlpas : List (List K)
  det_ovlpbs : List (List K)
  Gia : List (List (Mat K))
  Gib : List (List (Mat K))
  Gihalfa : List (List (Mat K))
  Gihalfb : List (List (Mat K))

/-- Translated from UHFWalkersParticleHoleNaive.init (uhf_walkers.py
lines 308-353): on top of the base construction, allocate det_weights,
det_ovlpas and det_ovlpbs as nwalkers by ndets zero arrays, and the Gia,
Gib, Gihalfa, Gihalfb stacks as zero tensors of the stated shapes. -/
def mkUHFWalkersParticleHoleNaive {K : Type} [Zero K]
    (base : UHFWalkersState K) (ndets : Nat) :
    UHFWalkersParticleHoleNaiveState K :=
  { base with
      ndets := ndets
      det_weights := zerosMat K base.nwalkers ndets
      det_ovlpas := zerosMat K base.nwalkers ndets
      det_ovlpbs := zerosMat K base.nwalkers ndets
      Gia := zeros4 K base.nwalkers ndets base.nbasis base.nbasis
      Gib := zeros4 K base.nwalkers ndets base.nbasis base.nbasis
      Gihalfa := zeros4 K base.nwalkers ndets base.nup base.nbasis
      Gihalfb := zeros4 K base.nwalkers ndets base.ndown base.nbasis }

/-- Translated from UHFWalkersParticleHoleNaive.build (uhf_walkers.py
lines 354-355): the build step returns immediately, adding nothing to the
state. -/
def uhfWalkersParticleHoleNaiveBuild {K : Type} (trial : Trial K)
    (s : UHFWalkersParticleHoleNaiveState K) :
    UHFWalkersParticleHoleNaiveState K :=
  s

/-- Column-wise concatenation of two row lists, mirroring numpy.hstack on
two 2-D arrays with equal row counts. -/
def hstack {K : Type} (a b : Mat K) : Mat K :=
  List.zipWith (fun ra rb => ra ++ rb) a b

/-- Translated from get_initial_walker (uhf_walkers.py lines 30-42):
SingleDet yields one determinant and the trial psi; ParticleHoleWicks and
ParticleHoleWicksNonChunked yield the trial determinant count and the
hstack of psi0a and psi0b; every other trial, ParticleHoleNaive included,
reaches the final else branch, which raises. -/
def getInitialWalker {K : Type} (t : Trial K) :
    Except String (Nat × Mat K) :=
  match t.tag with
  | TrialTag.singleDet => Except.ok (1, t.psi)
  | TrialTag.particleHoleWicks =>
      Except.ok (t.numDetsForTrial, hstack t.psi0a t.psi0b)
  | TrialTag.particleHoleWicksNonChunked =>
      Except.ok (t.numDetsForTrial, hstack t.psi0a t.psi0b)
  | _ => Except.error "Unrecognized trial type in get_initial_walker"

/-- The walker-batch subtypes that the dispatch table can select. -/
inductive WalkerKind where
  | uhfWalkers
  | uhfWalkersParticleHole
  | uhfWalkersParticleHoleNaive
deriving DecidableEq

/-- Translated from the UHFWalkersTrial dictionary (uhf_walkers.py lines
356-361): a finite map from trial tag to walker-batch subtype. Looking up
a key absent from a dictionary raises, and no subtype constructor runs, so
the unknown tag is sent to none. -/
def UHFWalkersTrial : TrialTag → Option WalkerKind
  | TrialTag.singleDet => some WalkerKind.uhfWalkers
  | TrialTag.particleHoleWicks => some WalkerKind.uhfWalkersParticleHole
  | TrialTag.particleHoleWicksNonChunked =>
      some WalkerKind.uhfWalkersParticleHole
  | TrialTag.particleHoleNaive =>
      some WalkerKind.uhfWalkersParticleHoleNaive
  | TrialTag.otherTrial => none

/-- Concrete rational backend used for evaluating the development on
concrete inputs: abs and sign are the exact real operations restricted to
Rat; exp and log are modelled by the identity, which satisfies the exact
law log (exp x) = x; qr is the trivial decomposition m = m * 1, valid for
one-column matrices. -/
def ratOps : NumOps ℚ where
  qr := fun m => (m, [[1]])
  exp := fun x => x
  log := fun x => x
  abs := fun x => if x < 0 then -x else x
  sign := fun x => if x < 0 then -1 else if x = 0 then 0 else 1

/-- Concrete rational backend whose decomposition of a one-column matrix m
is Q = -m, R = [[-1]]; this is a genuinely valid decomposition of m
(Q * R = m) whose R has a negative diagonal entry, exercising the sign
fix. All other operations agree with ratOps. -/
def ratOpsNegR : NumOps ℚ :=
  { ratOps with qr := fun m => (m.map (fun r => r.map (fun x => -x)), [[-1]]) }

/-- Concrete one-walker fully polarized batch: one walker, one up
electron, no down electrons, one basis function, orbital entry 2. -/
def stateA : UHFWalkersState ℚ :=
  { nup := 1, ndown := 0, nbasis := 1, nwalkers := 1,
    phia := [[[2]]], phib := [[[]]], detR := [1], log_detR := [0],
    ovlp := [1], detR_shift := [0] }

/-- Concrete one-walker fully polarized batch with orbital entry 3. -/
def stateB : UHFWalkersState ℚ :=
  { nup := 1, ndown := 0, nbasis := 1, nwalkers := 1,
    phia := [[[3]]], phib := [[[]]], detR := [1], log_detR := [0],
    ovlp := [1], detR_shift := [0] }

/-- Concrete one-walker fully polarized batch with orbital entry 1 and a
previous detR value of 2. -/
def stateC : UHFWalkersState ℚ :=
  { nup := 1, ndown := 0, nbasis := 1, nwalkers := 1,
    phia := [[[1]]], phib := [[[]]], detR := [2], log_detR := [0],
    ovlp := [6], detR_shift := [0] }

/-- Concrete one-walker fully polarized batch with orbital entry 5. -/
def stateD : UHFWalkersState ℚ :=
  { nup := 1, ndown := 0, nbasis := 1, nwalkers := 1,
    phia := [[[5]]], phib := [[[]]], detR := [1], log_detR := [0],
    ovlp := [1], detR_shift := [0] }

/-- Concrete one-walker batch with one up and one down electron. -/
def stateW : UHFWalkersState ℚ :=
  { nup := 1, ndown := 1, nbasis := 1, nwalkers := 1,
    phia := [[[2]]], phib := [[[3]]], detR := [1], log_detR := [0],
    ovlp := [6], detR_shift := [0] }

/-- Concrete base batch for exercising the particle-hole-naive
constructor: two walkers, no orbital data needed. -/
def baseW : UHFWalkersState ℚ :=
  { nup := 1, ndown := 1, nbasis := 2, nwalkers := 2,
    phia := [], phib := [], detR := [], log_detR := [],
    ovlp := [], detR_shift := [] }

/-- Concrete single-determinant trial. -/
def trialSingle : Trial ℚ :=
  { tag := TrialTag.singleDet, psi := [[1]], psi0a := [[1]],
    psi0b := [[1]], numDetsForTrial := 1 }

/-- Concrete particle-hole-naive trial. -/
def trialNaive : Trial ℚ :=
  { tag := TrialTag.particleHoleNaive, psi := [[1]], psi0a := [[1]],
    psi0b := [[1]], numDetsForTrial := 1 }

/-- Concrete trial whose tag matches none of the classes named by
uhf_walkers.py. -/
def trialOther : Trial ℚ :=
  { tag := TrialTag.otherTrial, psi := [], psi0a := [],
    psi0b := [], numDetsForTrial := 0 }

/-- Registered base buffer-field names of the ledger, standing for the
name list inherited from the base constructor. -/
def ledgerNamesW : List String :=
  ["weight", "ovlp", "detR", "log_detR", "detR_shift"]

/-- Allocated per-walker fields of a small concrete batch, as name and
size pairs: five ledger scalars of size one each and the two orbital
arrays phia and phib of size four each. -/
def allocW : List (String × Nat) :=
  [("weight", 1), ("ovlp", 1), ("detR", 1), ("log_detR", 1),
   ("detR_shift", 1), ("phia", 4), ("phib", 4)]

lemma getD_map_range {α : Type} :
    ∀ (n : Nat) (f : Nat → α) (d : α) (i : Nat), i < n →
      ((List.range n).map f).getD i d = f i := by
  intro n
  induction n with
  | zero => intro f d i h; exact absurd h (Nat.not_lt_zero i)
  | succ n ih =>
    intro f d i h
    rw [List.range_succ_eq_map, List.map_cons, List.map_map]
    cases i with
    | zero => rfl
    | succ i =>
      rw [List.getD_cons_succ]
      exact ih (f ∘ Nat.succ) d i (by omega)

lemma map_range_getD {α : Type} :
    ∀ (l : List α) (d : α),
      (List.range l.length).map (fun i => l.getD i d) = l := by
  intro l
  induction l with
  | nil => intro d; rfl
  | cons a t ih =>
    intro d
    rw [List.length_cons, List.range_succ_eq_map, List.map_cons,
      List.map_map]
    have h1 : ((fun i => (a :: t).getD i d) ∘ Nat.succ)
        = fun i => t.getD i d := by
      funext i
      rfl
    rw [h1, ih d]
    rfl

lemma getD_set_ne {α : Type} :
    ∀ (l : List α) (i j : Nat) (x d : α), i ≠ j →
      (l.set i x).getD j d = l.getD j d := by
  intro l
  induction l with
  | nil => intro i j x d h; rfl
  | cons a t ih =>
    intro i j x d h
    cases i with
    | zero =>
      cases j with
      | zero => exact absurd rfl h
      | succ j => rfl
    | succ i =>
      cases j with
      | zero => rfl
      | succ j => exact ih i j x d (fun he => h (by rw [he]))

lemma getD_replicate {α : Type} :
    ∀ (n i : Nat) (a d : α), i < n →
      (List.replicate n a).getD i d = a := by
  intro n
  induction n with
  | zero => intro i a d h; exact absurd h (Nat.not_lt_zero i)
  | succ n ih =>
    intro i a d h
    cases i with
    | zero => rfl
    | succ i => exact ih i a d (by omega)

/-- C1 (amended): for every numeric backend and every walker batch, the
per-walker mode and the batched mode return equal det_R lists, set the
detR field to the same values and set the ovlp field to the same values;
but the two modes are not functionally identical on the remaining mutated
fields: the batched mode leaves log_detR unchanged and sets phia to the
raw Q factors with no sign fix. -/
theorem reortho_vs_reortho_batched_agreement {K : Type} [Field K]
    (ops : NumOps K) (s : UHFWalkersState K) :
    (reortho ops s).2 = (reorthoBatched ops s).2
    ∧ (reortho ops s).1.detR = (reorthoBatched ops s).1.detR
    ∧ (reortho ops s).1.ovlp = (reorthoBatched ops s).1.ovlp
    ∧ (reorthoBatched ops s).1.log_detR = s.log_detR
    ∧ (reorthoBatched ops s).1.phia
        = (List.range s.nwalkers).map
            (fun iw => (ops.qr (s.phia.getD iw [])).1) := by
  by_cases h : 0 < s.ndown <;>
    simp [reortho, reorthoBatched, reorthoWalker, h]

/-- C1 counterexample: on a concrete one-walker batch and a concrete
valid decomposition backend, the per-walker mode and the batched mode
leave the mutated field phia in different states, refuting the claim that
the two modes are functionally identical on every mutated field. -/
theorem reortho_batched_phia_differs :
    ¬ ((reortho ratOpsNegR stateA).1.phia
        = (reorthoBatched ratOpsNegR stateA).1.phia) := by
  norm_num [reortho, reorthoBatched, reorthoWalker, ratOpsNegR, ratOps,
    stateA, diag, colScale, sumLogAbs, List.range_succ]

/-- C2 counterexample: the ledger update of reortho does not multiply the
previous detR entry by exp(log_det_delta - detR_shift); on a concrete
batch whose previous detR entry is 2 the new detR entry differs from the
previous entry times exp(log_det_delta - detR_shift). -/
theorem reortho_detR_not_multiplied :
    ¬ ((reortho ratOps stateC).1.detR.getD 0 0
        = stateC.detR.getD 0 0
            * ratOps.exp (reorthoLogDet ratOps stateC 0
                - stateC.detR_shift.getD 0 0)) := by
  norm_num [reortho, reorthoLogDet, reorthoWalker, ratOps,
    stateC, diag, colScale, sumLogAbs, List.range_succ]

/-- C2 (amended): for every walker i of the batch, the ledger correction
of reortho sets detR to exp of the accumulated log-determinant minus the
walker's shift, replacing the previous detR value; it adds log of the new
detR value, not the raw accumulated log-determinant, to log_detR; and it
divides ovlp by the new detR value, so that the overlap after correction
equals the overlap before divided by the new detR, exactly and
independently per walker. -/
theorem reortho_ledger_update {K : Type} [Field K] (ops : NumOps K)
    (s : UHFWalkersState K) (i : Nat) (h : i < s.nwalkers) :
    (reortho ops s).1.detR.getD i 0
      = ops.exp (reorthoLogDet ops s i - s.detR_shift.getD i 0)
    ∧ (reortho ops s).1.log_detR.getD i 0
      = s.log_detR.getD i 0 + ops.log ((reortho ops s).1.detR.getD i 0)
    ∧ (reortho ops s).1.ovlp.getD i 0
      = s.ovlp.getD i 0 / (reortho ops s).1.detR.getD i 0 := by
  have hd : (reortho ops s).1.detR.getD i 0
      = (reorthoWalker ops s.ndown (s.detR_shift.getD i 0)
          (s.phia.getD i []) (s.phib.getD i [])).2.2 := by
    simp only [reortho]
    exact getD_map_range s.nwalkers _ 0 i h
  refine ⟨?_, ?_, ?_⟩
  · rw [hd]
    by_cases hdn : 0 < s.ndown <;>
      simp [reorthoWalker, reorthoLogDet, hdn]
  · rw [hd]
    simp only [reortho]
    rw [getD_map_range s.nwalkers _ 0 i h]
  · rw [hd]
    simp only [reortho]
    rw [getD_map_range s.nwalkers _ 0 i h]

/-- C2 witness: the amended ledger property evaluated on a concrete
one-walker batch. -/
theorem reortho_ledger_update_witness :
    (reortho ratOps stateW).1.ovlp.getD 0 0
      = stateW.ovlp.getD 0 0 / (reortho ratOps stateW).1.detR.getD 0 0 :=
  (reortho_ledger_update ratOps stateW 0 (by decide)).2.2

/-- C3 counterexample: in the batched mode, after factoring phi as Q R
the orbital matrix is not replaced by Q times the diagonal of signs; on a
concrete one-walker batch and a concrete valid decomposition backend with
a negative diagonal entry of R, the batched orbital state differs from Q
times diag of the signs. -/
theorem reortho_batched_no_sign_fix :
    ¬ ((reorthoBatched ratOpsNegR stateB).1.phia.getD 0 []
        = colScale (ratOpsNegR.qr (stateB.phia.getD 0 [])).1
            ((diag (ratOpsNegR.qr (stateB.phia.getD 0 [])).2).map
              ratOpsNegR.sign)) := by
  norm_num [reorthoBatched, ratOpsNegR, ratOps, stateB, diag, colScale,
    sumLogAbs, List.range_succ]

/-- C3 (amended): in the per-walker mode, for every walker and every spin
channel processed, after factoring phi as Q R the orbital matrix is
replaced by Q times the diagonal matrix of the signs of the diagonal
entries of R; the down channel is processed exactly when ndown is
positive. The batched mode does not apply this sign fix. -/
theorem reortho_sign_fix {K : Type} [Field K] (ops : NumOps K)
    (s : UHFWalkersState K) (i : Nat) (h : i < s.nwalkers) :
    (reortho ops s).1.phia.getD i []
      = colScale (ops.qr (s.phia.getD i [])).1
          ((diag (ops.qr (s.phia.getD i [])).2).map ops.sign)
    ∧ (0 < s.ndown →
        (reortho ops s).1.phib.getD i []
          = colScale (ops.qr (s.phib.getD i [])).1
              ((diag (ops.qr (s.phib.getD i [])).2).map ops.sign)) := by
  constructor
  · simp only [reortho]
    rw [getD_map_range s.nwalkers _ [] i h]
    by_cases hdn : 0 < s.ndown <;> simp [reorthoWalker, hdn]
  · intro hdn
    simp only [reortho]
    rw [getD_map_range s.nwalkers _ [] i h]
    simp [reorthoWalker, hdn]

/-- C3 witness: the per-walker sign fix evaluated on the down channel of
a concrete one-walker batch with one down electron. -/
theorem reortho_sign_fix_witness :
    (reortho ratOpsNegR stateW).1.phib.getD 0 []
      = colScale (ratOpsNegR.qr (stateW.phib.getD 0 [])).1
          ((diag (ratOpsNegR.qr (stateW.phib.getD 0 [])).2).map
            ratOpsNegR.sign) :=
  (reortho_sign_fix ratOpsNegR stateW 0 (by decide)).2 (by decide)

/-- C4: when ndown is zero, both execution modes leave phib untouched and
return det_R values built from the up-channel log-determinant sum alone;
no down-channel decomposition, sign fix or ledger term is produced. -/
theorem reortho_ndown_zero {K : Type} [Field K] (ops : NumOps K)
    (s : UHFWalkersState K) (h : s.ndown = 0)
    (hlen : s.phib.length = s.nwalkers) :
    (reortho ops s).1.phib = s.phib
    ∧ (reorthoBatched ops s).1.phib = s.phib
    ∧ (reortho ops s).2
        = (List.range s.nwalkers).map (fun iw =>
            ops.exp (sumLogAbs ops (diag (ops.qr (s.phia.getD iw [])).2)
              - s.detR_shift.getD iw 0))
    ∧ (reorthoBatched ops s).2
        = (List.range s.nwalkers).map (fun iw =>
            ops.exp (sumLogAbs ops (diag (ops.qr (s.phia.getD iw [])).2)
              - s.detR_shift.getD iw 0)) := by
  have hdn : ¬ 0 < s.ndown := by omega
  refine ⟨?_, ?_, ?_, ?_⟩
  · simp only [reortho]
    simp [reorthoWalker, hdn]
    rw [← hlen]
    simpa using map_range_getD s.phib []
  · simp [reorthoBatched, hdn]
  · simp [reortho, reorthoWalker, hdn]
  · simp [reorthoBatched, hdn]

/-- C4 witness: the fully polarized property evaluated on a concrete
one-walker batch with no down electrons. -/
theorem reortho_ndown_zero_witness :
    (reortho ratOps stateD).1.phib = stateD.phib :=
  (reortho_ndown_zero ratOps stateD (by decide) (by decide)).1

/-- C5 counterexample: a two-dimensional initial matrix of 3 columns with
nup and ndown both 2 passes the construction check even though 2 plus 2
does not equal 3, refuting the claim that construction fails whenever nup
and ndown do not partition the column count. -/
theorem initCheck_ignores_column_partition :
    uhfWalkersInitCheck [4, 3] 2 2 = Except.ok () ∧ 2 + 2 ≠ 3 :=
  ⟨rfl, by decide⟩

/-- C5 (amended): walker-batch construction fails exactly when the
initial orbital matrix is not two-dimensional; no consistency between
nup, ndown and the column count is validated. -/
theorem initCheck_iff_two_dim (shape : List Nat) ( nup ndown : Nat) :
    uhfWalkersInitCheck shape nup ndown = Except.ok ()
      ↔ shape.length = 2 := by
  by_cases h : shape.length = 2 <;> simp [uhfWalkersInitCheck, h]

/-- C6: a trial whose tag matches none of the known walker-batch subtypes
is sent to none by the dispatch table, modelling the raised lookup error
before any subtype constructor or auxiliary-buffer allocation runs, and
get_initial_walker raises on it as well. -/
theorem unknown_trial_dispatch_errors {K : Type} (t : Trial K)
    (h : t.tag ∉ [TrialTag.singleDet, TrialTag.particleHoleWicks,
        TrialTag.particleHoleWicksNonChunked, TrialTag.particleHoleNaive]) :
    UHFWalkersTrial t.tag = none
    ∧ getInitialWalker t
        = Except.error "Unrecognized trial type in get_initial_walker" := by
  obtain ⟨tag, psi, a, b, nd⟩ := t
  cases tag <;> simp_all [UHFWalkersTrial, getInitialWalker]

/-- C6 witness: the unknown-variant property evaluated on a concrete
trial with an unrecognized tag. -/
theorem unknown_trial_dispatch_errors_witness :
    UHFWalkersTrial trialOther.tag = none :=
  (unknown_trial_dispatch_errors trialOther (by decide)).1

/-- C7: construction replicates the initial orbital matrix across the
batch: every walker's phia is the first nup columns and every walker's
phib is the remaining columns of the initial matrix, and overwriting one
walker's matrix leaves every other walker's matrix unchanged. -/
theorem walker_init_replication {K : Type} (initial : Mat K)
    ( nup nw i j : Nat) (M : Mat K) (hi : i < nw) (hj : j < nw)
    (hij : i ≠ j) :
    (mkPhia initial nup nw).getD i []
      = initial.map (fun row => row.take nup)
    ∧ (mkPhib initial nup nw).getD i []
        = initial.map (fun row => row.drop nup)
    ∧ ((mkPhia initial nup nw).set i M).getD j []
        = (mkPhia initial nup nw).getD j []
    ∧ ((mkPhib initial nup nw).set i M).getD j []
        = (mkPhib initial nup nw).getD j [] := by
  refine ⟨?_, ?_, ?_, ?_⟩
  · simp only [mkPhia]
    exact getD_map_range nw _ [] i hi
  · simp only [mkPhib]
    exact getD_map_range nw _ [] i hi
  · exact getD_set_ne (mkPhia initial nup nw) i j M [] hij
  · exact getD_set_ne (mkPhib initial nup nw) i j M [] hij

/-- C7 witness: the replication property evaluated on a concrete two-row
initial matrix replicated over two walkers. -/
theorem walker_init_replication_witness :
    (mkPhia [[(1 : ℚ), 2], [3, 4]] 1 2).getD 0 []
      = [[(1 : ℚ), 2], [3, 4]].map (fun row => row.take 1) :=
  (walker_init_replication [[(1 : ℚ), 2], [3, 4]] 1 2 0 1 []
    (by decide) (by decide) (by decide)).1

/-- C8: the field-name list registered for buffer sizing does not contain
the names phia and phib of the allocated orbital arrays; it contains the
single malformed entry made of both names joined by a comma, so the
buffer size computed over the registered names misses the orbital arrays
entirely: on a concrete batch the computed size is 5 while the sum of all
allocated per-walker field sizes is 13. -/
theorem buff_names_misses_phia_phib :
    (uhfBuffNames ledgerNamesW).contains "phia" = false
    ∧ (uhfBuffNames ledgerNamesW).contains "phib" = false
    ∧ (uhfBuffNames ledgerNamesW).contains "phia, phib" = true
    ∧ setBuffSizeSingleWalker allocW (uhfBuffNames ledgerNamesW) = 5
    ∧ (allocW.map (fun p => p.2)).sum = 13 :=
  ⟨rfl, rfl, rfl, rfl, rfl⟩

/-- C9: the single-determinant build step is the identity, adding nothing
beyond the base fields; the particle-hole-naive build step is also the
identity, and the det_weights tensor allocated at construction has one
row per walker, ndets entries per row, and every entry zero. -/
theorem build_noop_and_det_weights_zero {K : Type} [Field K]
    (tr : Trial K) (s : UHFWalkersState K) (base : UHFWalkersState K)
    (nd i j : Nat) (hi : i < base.nwalkers) (hj : j < nd) :
    uhfWalkersBuild tr s = s
    ∧ uhfWalkersParticleHoleNaiveBuild tr
        (mkUHFWalkersParticleHoleNaive base nd)
        = mkUHFWalkersParticleHoleNaive base nd
    ∧ (mkUHFWalkersParticleHoleNaive base nd).det_weights.length
        = base.nwalkers
    ∧ ((mkUHFWalkersParticleHoleNaive base nd).det_weights.getD i []).length
        = nd
    ∧ ((mkUHFWalkersParticleHoleNaive base nd).det_weights.getD i []).getD
        j 0 = 0 := by
  refine ⟨rfl, rfl, ?_, ?_, ?_⟩
  · simp [mkUHFWalkersParticleHoleNaive, zerosMat]
  · show ((zerosMat K base.nwalkers nd).getD i []).length = nd
    rw [zerosMat, getD_replicate base.nwalkers i (List.replicate nd 0) [] hi,
      List.length_replicate]
  · show ((zerosMat K base.nwalkers nd).getD i []).getD j 0 = 0
    rw [zerosMat, getD_replicate base.nwalkers i (List.replicate nd 0) [] hi,
      getD_replicate nd j 0 0 hj]

/-- C9 witness: the det_weights zero property evaluated on a concrete
two-walker base batch with three determinants. -/
theorem build_noop_and_det_weights_zero_witness :
    ((mkUHFWalkersParticleHoleNaive baseW 3).det_weights.getD 0
      []).getD 1 0 = (0 : ℚ) :=
  (build_noop_and_det_weights_zero trialSingle stateW baseW 3 0 1
    (by decide) (by decide)).2.2.2.2

/-- C10: the dispatch table maps the particle-hole-naive tag to the
particle-hole-naive walker subtype, yet get_initial_walker raises on
every trial carrying that tag, so no initial walker can be extracted for
a variant the dispatch table claims to support. -/
theorem naive_dispatch_vs_initial_walker {K : Type} (t : Trial K)
    (h : t.tag = TrialTag.particleHoleNaive) :
    UHFWalkersTrial t.tag = some WalkerKind.uhfWalkersParticleHoleNaive
    ∧ getInitialWalker t
        = Except.error "Unrecognized trial type in get_initial_walker" := by
  obtain ⟨tag, psi, a, b, nd⟩ := t
  subst h
  exact ⟨rfl, rfl⟩

/-- C10 witness: the dispatch disagreement evaluated on a concrete
particle-hole-naive trial. -/
theorem naive_dispatch_vs_initial_walker_witness :
    UHFWalkersTrial trialNaive.tag
      = some WalkerKind.uhfWalkersParticleHoleNaive :=
  (naive_dispatch_vs_initial_walker trialNaive rfl).1

end Ipie
